import Mathlib

/-!
Verification of the "Adargama" canyon-record CRUD application (`src/app.py`).

The application is shallowly embedded: strings are `String`/`List Char`,
Python floats are modelled as rationals `ℚ` (every numeric literal appearing
in the application's inputs is a finite decimal, which `ℚ` represents
exactly), the SQLAlchemy table is a `List Barranco`, and each Flask request
handler becomes a pure function from the current store and the parsed form
input to an outcome, the resulting store, and the list of file paths written
during the request.
-/

namespace Adargama

/-- Python `str.isspace`-style whitespace characters, as used by `str.strip()`
and `str.split()` on ASCII text. -/
def pyIsSpace (c : Char) : Bool :=
  c = ' ' || c = '\t' || c = '\n' || c = '\x0d' || c = '\x0b' || c = '\x0c'

/-- Python `str.strip()` with no argument: remove leading and trailing
whitespace. -/
def stripL (l : List Char) : List Char :=
  ((l.dropWhile pyIsSpace).reverse.dropWhile pyIsSpace).reverse

/-- Python `s.split(",")`: split on every comma, keeping empty pieces
(`"".split(",") == [""]`, `",".split(",") == ["", ""]`). -/
def splitComma : List Char → List (List Char)
  | [] => [[]]
  | c :: cs =>
    if c = ',' then [] :: splitComma cs
    else
      match splitComma cs with
      | t :: ts => (c :: t) :: ts
      | [] => [[c]]

/-- Numeric value of a decimal digit character. -/
def digitVal (c : Char) : ℕ := c.toNat - '0'.toNat

/-- Value of a most-significant-first decimal digit string. -/
def digitsToNat (l : List Char) : ℕ :=
  l.foldl (fun a c => 10 * a + digitVal c) 0

/-- Strip one optional leading sign character, reporting whether it was a
minus. -/
def pySign : List Char → Bool × List Char
  | '-' :: t => (true, t)
  | '+' :: t => (false, t)
  | l => (false, l)

/-- Python's builtin `float(s)` on a decimal literal, modelled over `ℚ`:
optional surrounding whitespace, optional sign, an integer part and/or a
fractional part (at least one digit overall), and an optional decimal
exponent.  `inf`/`nan` spellings and digit-group underscores are not
modelled; no input of this application uses them. -/
def pyFloat (l : List Char) : Option ℚ :=
  let sp := pySign (stripL l)
  let neg := sp.1
  let l1 := sp.2
  let ip := l1.takeWhile Char.isDigit
  let r1 := l1.dropWhile Char.isDigit
  let fr : List Char × List Char :=
    match r1 with
    | '.' :: t => (t.takeWhile Char.isDigit, t.dropWhile Char.isDigit)
    | _ => ([], r1)
  let fp := fr.1
  let r2 := fr.2
  if ip.isEmpty && fp.isEmpty then none
  else
    let ex : Option ℤ :=
      match r2 with
      | [] => some 0
      | e :: t =>
        if e = 'e' || e = 'E' then
          let spe := pySign t
          let ed := spe.2.takeWhile Char.isDigit
          let r3 := spe.2.dropWhile Char.isDigit
          if ed.isEmpty || !r3.isEmpty then none
          else some (if spe.1 then -(digitsToNat ed : ℤ) else (digitsToNat ed : ℤ))
        else none
    match ex with
    | none => none
    | some ev =>
      let mag : ℚ := ((digitsToNat ip : ℚ) + (digitsToNat fp : ℚ) / 10 ^ fp.length) * 10 ^ ev
      some (if neg then -mag else mag)

/-- The length-list conversion
`[float(x.strip()) for x in s.split(",") if x.strip() != ""]` wrapped in
`try/except ValueError` (`src/app.py` lines 82 and 130): pieces are processed
left to right; a piece that strips to empty is skipped; the first piece whose
stripped text fails `float` aborts the whole conversion. -/
def parseMetrosPieces : List (List Char) → Option (List ℚ)
  | [] => some []
  | x :: xs =>
    if stripL x = [] then parseMetrosPieces xs
    else
      match pyFloat (stripL x) with
      | none => none
      | some v => (parseMetrosPieces xs).map (v :: ·)

/-- Conversion of the `metros_rapeles` form text to a list of numbers. -/
def parseMetrosL (l : List Char) : Option (List ℚ) :=
  parseMetrosPieces (splitComma l)

/-- `parseMetrosL` on a `String`. -/
def parseMetros (s : String) : Option (List ℚ) :=
  parseMetrosL s.data

/-! ### Serialization of a stored length list (edit-form prefill, line 122) -/

/-- Multiplicity of a factor `p ≥ 2` in `n`: how many times `p` divides `n`. -/
def multExp (p : ℕ) : ℕ → ℕ
  | n =>
    if h : 2 ≤ p ∧ 0 < n ∧ p ∣ n then
      multExp p (n / p) + 1
    else 0
  decreasing_by
    exact Nat.div_lt_self h.2.1 h.1

/-- Number of fractional digits used to print a rational exactly as a decimal:
enough to clear all factors of `2` and `5` from the denominator, and at least
one, matching Python's `str` on a float, which always shows a fractional part
(`str(2.0) == "2.0"`). -/
def fracDigits (q : ℚ) : ℕ :=
  max 1 (max (multExp 2 q.den) (multExp 5 q.den))

/-- Least-significant-first decimal digit characters of `n` (empty for `0`). -/
def natToCharsRev : ℕ → List Char
  | 0 => []
  | n + 1 => Nat.digitChar ((n + 1) % 10) :: natToCharsRev ((n + 1) / 10)
  decreasing_by
    exact Nat.div_lt_self (Nat.succ_pos n) (by norm_num)

/-- Decimal digit characters of `n`, most significant first. -/
def natToChars (n : ℕ) : List Char :=
  if n = 0 then ['0'] else (natToCharsRev n).reverse

/-- Python's `str` on a stored length, modelled over `ℚ`: sign, integer part,
`'.'`, and `fracDigits q` fractional digits.  It prints the exact value
whenever `q.den ∣ 10 ^ fracDigits q` (Python's `str` on a float likewise
round-trips through `float` exactly). -/
def pyStr (q : ℚ) : List Char :=
  let k := fracDigits q
  let m := (q * (10 : ℚ) ^ k).num.natAbs
  let fracs := natToChars (m % 10 ^ k)
  (if q < 0 then ['-'] else []) ++ natToChars (m / 10 ^ k) ++
    '.' :: (List.replicate (k - fracs.length) '0' ++ fracs)

/-- The edit form's prefill `", ".join(str(x) for x in barranco.metros_rapeles)`
(`src/app.py` line 122). -/
def serializeMetros (l : List ℚ) : List Char :=
  (l.map pyStr).intersperse [',', ' '] |>.flatten

/-! ### Filename sanitization and upload paths -/

/-- Characters `werkzeug.utils.secure_filename` keeps: the regex class
`[A-Za-z0-9_.-]`. -/
def isSafeChar (c : Char) : Bool :=
  c.isAlphanum || c = '_' || c = '.' || c = '-'

/-- Python `str.split()` with no argument: split on runs of whitespace,
producing no empty words.  `acc` holds the current word reversed. -/
def pySplitWsAux : List Char → List Char → List (List Char)
  | [], acc => if acc.isEmpty then [] else [acc.reverse]
  | c :: cs, acc =>
    if pyIsSpace c then
      if acc.isEmpty then pySplitWsAux cs []
      else acc.reverse :: pySplitWsAux cs []
    else pySplitWsAux cs (c :: acc)

def pySplitWs (l : List Char) : List (List Char) :=
  pySplitWsAux l []

/-- Python `str.strip("._")`: remove leading and trailing `'.'` and `'_'`. -/
def stripDotUnderscore (l : List Char) : List Char :=
  let p : Char → Bool := fun c => c = '.' || c = '_'
  ((l.dropWhile p).reverse.dropWhile p).reverse

/-- `werkzeug.utils.secure_filename` on a POSIX host (`os.sep = "/"`,
`os.path.altsep = None`, `os.name ≠ "nt"`): encode to ASCII dropping other
characters (the NFKD normalization step is the identity on ASCII and is not
modelled), replace `os.sep` by a space, split on whitespace and rejoin with
`'_'`, delete every character outside `[A-Za-z0-9_.-]`, and strip leading and
trailing `'.'`/`'_'`. -/
def secureFilename (l : List Char) : List Char :=
  let ascii := l.filter (fun c => c.toNat < 128)
  let noSep := ascii.map (fun c => if c = '/' then ' ' else c)
  let joined := (pySplitWs noSep).intersperse ['_'] |>.flatten
  stripDotUnderscore (joined.filter isSafeChar)

/-- `secureFilename` on a `String`. -/
def secureFilenameS (s : String) : String :=
  ⟨secureFilename s.data⟩

/-- `os.path.join(a, b)` for two POSIX path components, at the character
level: an absolute second component replaces the first, otherwise the two are
joined with a single `'/'`. -/
def osPathJoinL (a b : List Char) : List Char :=
  if b.head? = some '/' then b
  else if a = [] || a.getLast? = some '/' then a ++ b
  else a ++ '/' :: b

/-- `os.path.join` on `String`s. -/
def osPathJoin (a b : String) : String :=
  ⟨osPathJoinL a.data b.data⟩

/-- The managed upload directory, `app.config["UPLOAD_FOLDER"]`
(`src/app.py` line 23).  The absolute `BASE_DIR` prefix is abstracted away. -/
def UPLOAD_FOLDER : String := "static/uploads"

/-! ### Data model -/

/-- The `Barranco` SQLAlchemy model (`src/app.py` lines 31-46).  `id` is the
integer primary key; `metros_rapeles` is the JSON list of numbers. -/
structure Barranco where
  id : ℕ
  nombre : String
  ubicacion : String
  dificultad : String
  num_rapeles : ℤ
  metros_rapeles : List ℚ
  volado : String
  imagen : Option String
  comentarios : String
  deriving Repr, DecidableEq

/-- The `barranco` table: the records currently stored, in insertion order. -/
abbrev Store := List Barranco

/-- `Barranco.query.get(id)` / the load behind `get_or_404`. -/
def fetchById (s : Store) (id : ℕ) : Option Barranco :=
  s.find? (fun b => b.id == id)

/-- `Barranco.query.filter_by(nombre=n).first()` used by the duplicate-name
checks, reduced to whether a match exists. -/
def nameTaken (s : Store) (n : String) : Bool :=
  (s.find? (fun b => b.nombre == n)).isSome

/-- The next primary key SQLite assigns on insert: one more than the largest
existing id. -/
def nextId (s : Store) : ℕ :=
  (s.map Barranco.id).foldr max 0 + 1

/-- An uploaded file as the handlers see it: the client-supplied filename
(`FileStorage.filename`).  The byte content plays no role in any rule. -/
structure UploadedFile where
  filename : String
  deriving Repr, DecidableEq

/-- The submitted `BarrancoForm` data after WTForms field coercion:
`num_rapeles` is `none` when the `IntegerField` could not coerce the raw
value to an integer, `imagen` is `none` when no file was uploaded. -/
structure FormInput where
  nombre : String
  ubicacion : String
  dificultad : String
  num_rapeles : Option ℤ
  metros_rapeles : String
  volado : String
  imagen : Option UploadedFile
  comentarios : String
  deriving Repr, DecidableEq

/-- WTForms `DataRequired` on a string field: fails when the data is empty or
consists only of whitespace (`not field.data.strip()`). -/
def dataRequiredStr (s : String) : Bool :=
  !(stripL s.data).isEmpty

/-- `flask_wtf.file.FileAllowed(["jpg", "jpeg", "png"])`: when a file is
present, its lowercased filename must end in one of the allowed
extensions. -/
def fileAllowed (f : Option UploadedFile) : Bool :=
  match f with
  | none => true
  | some file =>
    let lower := file.filename.data.map Char.toLower
    ".jpg".data.isSuffixOf lower || ".jpeg".data.isSuffixOf lower ||
      ".png".data.isSuffixOf lower

/-- `form.validate_on_submit()` for `BarrancoForm` (`src/app.py` lines
49-62): `nombre`, `ubicacion`, `metros_rapeles` must be non-blank
(`DataRequired`); `dificultad` and `volado` must be one of their `SelectField`
choices; `num_rapeles` must have coerced to an integer that is truthy
(`DataRequired` rejects `0`) and at least `1` (`NumberRange(min=1)`); an
uploaded image, if any, must pass `FileAllowed`. -/
def validateForm (i : FormInput) : Bool :=
  dataRequiredStr i.nombre &&
  dataRequiredStr i.ubicacion &&
  (i.dificultad == "Baja" || i.dificultad == "Media" || i.dificultad == "Alta") &&
  (match i.num_rapeles with
   | some n => decide (1 ≤ n)
   | none => false) &&
  dataRequiredStr i.metros_rapeles &&
  (i.volado == "Sí" || i.volado == "No") &&
  fileAllowed i.imagen

/-- How a request handler run ends. -/
inductive Res where
  /-- All checks passed and the record was committed; redirect to the index. -/
  | ok (id : ℕ)
  /-- The call `form.validate_on_submit()` was false: a required field is
  missing or a field-level validator failed; the form page is re-rendered. -/
  | formInvalid
  /-- Flash "Ya existe un barranco con ese nombre." -/
  | duplicateName
  /-- Flash "Error al convertir los metros de rápel." (the `ValueError` branch). -/
  | invalidNumberList
  /-- Flash "La cantidad de metros no coincide con el número de rápeles." -/
  | countMismatch
  /-- The call `get_or_404` aborted with 404. -/
  | notFound
  deriving Repr, DecidableEq

/-- Observable effect of one POST request: its outcome, the table contents
afterwards, and the filesystem paths written during the request, in order. -/
structure RunOut where
  res : Res
  store : Store
  writes : List String
  deriving Repr, DecidableEq

/-- The saved name and upload path for a submitted image
(`src/app.py` lines 103-104 and 150-151). -/
def savedImageName (f : UploadedFile) : String :=
  secureFilenameS f.filename

def savedImagePath (f : UploadedFile) : String :=
  osPathJoin UPLOAD_FOLDER (savedImageName f)

/-- The file paths written while processing one submitted form: the saved
upload when a file was submitted, nothing otherwise. -/
def imageWrites (i : FormInput) : List String :=
  match i.imagen with
  | some f => [savedImagePath f]
  | none => []

/-- The record built by `agregar` (`src/app.py` lines 91-106) from the
validated input and the parsed length list. -/
def nuevoBarranco (s : Store) (i : FormInput) (metros : List ℚ) : Barranco :=
  { id := nextId s
    nombre := i.nombre
    ubicacion := i.ubicacion
    dificultad := i.dificultad
    num_rapeles := i.num_rapeles.getD 0
    metros_rapeles := metros
    volado := i.volado
    imagen := i.imagen.map savedImageName
    comentarios := i.comentarios }

/-- The field overwrite performed by `editar` (`src/app.py` lines 139-153):
every field is replaced by the submitted value, except `imagen`, which is
replaced only when a new file was uploaded. -/
def updatedBarranco (b : Barranco) (i : FormInput) (metros : List ℚ) : Barranco :=
  { id := b.id
    nombre := i.nombre
    ubicacion := i.ubicacion
    dificultad := i.dificultad
    num_rapeles := i.num_rapeles.getD 0
    metros_rapeles := metros
    volado := i.volado
    imagen := match i.imagen with
              | some f => some (savedImageName f)
              | none => b.imagen
    comentarios := i.comentarios }

/-- The `agregar` POST handler (`src/app.py` lines 71-113): validate the
form; reject a taken name; convert the metros text, rejecting on
`ValueError`; reject a count mismatch; build the record, saving the image
first if one was uploaded; insert and commit. -/
def agregar (s : Store) (i : FormInput) : RunOut :=
  if !validateForm i then ⟨.formInvalid, s, []⟩
  else if nameTaken s i.nombre then ⟨.duplicateName, s, []⟩
  else
    match parseMetros i.metros_rapeles with
    | none => ⟨.invalidNumberList, s, []⟩
    | some metros =>
      if (metros.length : ℤ) ≠ i.num_rapeles.getD 0 then ⟨.countMismatch, s, []⟩
      else ⟨.ok (nextId s), s ++ [nuevoBarranco s i metros], imageWrites i⟩

/-- The `editar` POST handler (`src/app.py` lines 116-159): load the record
or 404; validate the form; if the name changed, reject when the new name is
taken; convert the metros text; reject a count mismatch; overwrite all
fields, replacing the stored image name only when a new file was uploaded
(saving it); commit. -/
def editar (s : Store) (id : ℕ) (i : FormInput) : RunOut :=
  match fetchById s id with
  | none => ⟨.notFound, s, []⟩
  | some b =>
    if !validateForm i then ⟨.formInvalid, s, []⟩
    else if i.nombre != b.nombre && nameTaken s i.nombre then ⟨.duplicateName, s, []⟩
    else
      match parseMetros i.metros_rapeles with
      | none => ⟨.invalidNumberList, s, []⟩
      | some metros =>
        if (metros.length : ℤ) ≠ i.num_rapeles.getD 0 then ⟨.countMismatch, s, []⟩
        else
          ⟨.ok b.id,
            s.map (fun r => if r.id == id then updatedBarranco b i metros else r),
            imageWrites i⟩

/-- The `eliminar` POST handler (`src/app.py` lines 162-168). -/
def eliminar (s : Store) (id : ℕ) : RunOut :=
  match fetchById s id with
  | none => ⟨.notFound, s, []⟩
  | some _ => ⟨.ok id, s.filter (fun r => r.id != id), []⟩

/-! ### Concrete example data (the spec's example scenarios) -/

/-- The spec's example record: create(name="Cueva Azul", location="Sierra X",
difficulty=Media, rappelCount=2, lengths "10, 15.5", overhang No). -/
def iCueva : FormInput :=
  { nombre := "Cueva Azul", ubicacion := "Sierra X", dificultad := "Media"
    num_rapeles := some 2, metros_rapeles := "10, 15.5", volado := "No"
    imagen := none, comentarios := "" }

/-- The stored form of `iCueva` at id 1 in an empty store. -/
def bCueva : Barranco :=
  { id := 1, nombre := "Cueva Azul", ubicacion := "Sierra X"
    dificultad := "Media", num_rapeles := 2, metros_rapeles := [10, 31/2]
    volado := "No", imagen := none, comentarios := "" }

/-- The spec's mismatch scenario: rappelCount=2 but lengths text "10". -/
def iMismatch : FormInput := { iCueva with metros_rapeles := "10" }

/-- A count-mismatch submission that also carries an uploaded photo. -/
def iFoto : FormInput := { iMismatch with imagen := some ⟨"foto.jpg"⟩ }

/-- A fully valid submission carrying an uploaded photo. -/
def iFotoOk : FormInput := { iCueva with imagen := some ⟨"foto.jpg"⟩ }

/-- A submission whose lengths text is a single space: non-empty but blank. -/
def iBlank : FormInput := { iCueva with metros_rapeles := " " }

/-- A submission whose lengths text is only commas and whitespace. -/
def iCommas : FormInput := { iCueva with metros_rapeles := ", ," }

/-- An update of `bCueva` keeping its name but changing the location. -/
def iEdit : FormInput := { iCueva with ubicacion := "Sierra Y" }

/-- A submission whose lengths text has a token `float` rejects. -/
def iBad : FormInput := { iCueva with metros_rapeles := "abc" }

/-! ### Store and id lemmas -/

lemma le_foldr_max (l : List ℕ) (x : ℕ) (hx : x ∈ l) : x ≤ l.foldr max 0 := by
  induction l with
  | nil => cases hx
  | cons a t ih =>
    rcases List.mem_cons.mp hx with h | h
    · subst h; exact le_max_left _ _
    · exact le_trans (ih h) (le_max_right _ _)

lemma id_lt_nextId {s : Store} {b : Barranco} (hb : b ∈ s) : b.id < nextId s := by
  have h1 : b.id ≤ (s.map Barranco.id).foldr max 0 :=
    le_foldr_max _ _ (List.mem_map.mpr ⟨b, hb, rfl⟩)
  have h2 : nextId s = (s.map Barranco.id).foldr max 0 + 1 := rfl
  omega

lemma fetchById_append_nextId (s : Store) (b : Barranco) (hid : b.id = nextId s) :
    fetchById (s ++ [b]) (nextId s) = some b := by
  unfold fetchById
  rw [List.find?_append]
  have hnone : s.find? (fun r => r.id == nextId s) = none := by
    rw [List.find?_eq_none]
    intro r hr hbe
    simp only [beq_iff_eq] at hbe
    exact absurd hbe (Nat.ne_of_lt (id_lt_nextId hr))
  simp [hnone, List.find?, hid]

/-! ### Case analyses of the two handlers -/

/-- Every run of `agregar` either changes nothing (a validation or uniqueness
failure) or passed all four checks and committed the new record. -/
lemma agregar_cases (s : Store) (i : FormInput) :
    ((agregar s i).store = s ∧ (agregar s i).writes = [] ∧
      ∀ j, (agregar s i).res ≠ .ok j) ∨
    ∃ ms, validateForm i = true ∧ nameTaken s i.nombre = false ∧
      parseMetros i.metros_rapeles = some ms ∧
      (ms.length : ℤ) = i.num_rapeles.getD 0 ∧
      agregar s i = ⟨.ok (nextId s), s ++ [nuevoBarranco s i ms], imageWrites i⟩ := by
  by_cases hv : validateForm i
  · by_cases hn : nameTaken s i.nombre
    · left; simp [agregar, hv, hn]
    · rcases hp : parseMetros i.metros_rapeles with _ | ms
      · left; simp [agregar, hv, hn, hp]
      · by_cases hc : (ms.length : ℤ) = i.num_rapeles.getD 0
        · right
          exact ⟨ms, hv, by simpa using hn, rfl, hc, by simp [agregar, hv, hn, hp, hc]⟩
        · left; simp [agregar, hv, hn, hp, hc]
  · left; simp [agregar, hv]

/-- Every run of `editar` either changes nothing or passed every check and
overwrote the matching record. -/
lemma editar_cases (s : Store) (id : ℕ) (i : FormInput) :
    ((editar s id i).store = s ∧ (editar s id i).writes = [] ∧
      ∀ j, (editar s id i).res ≠ .ok j) ∨
    ∃ b ms, fetchById s id = some b ∧ validateForm i = true ∧
      (i.nombre != b.nombre && nameTaken s i.nombre) = false ∧
      parseMetros i.metros_rapeles = some ms ∧
      (ms.length : ℤ) = i.num_rapeles.getD 0 ∧
      editar s id i =
        ⟨.ok b.id, s.map (fun r => if r.id == id then updatedBarranco b i ms else r),
          imageWrites i⟩ := by
  rcases hb : fetchById s id with _ | b
  · left; simp [editar, hb]
  · by_cases hv : validateForm i
    · by_cases hn : (i.nombre != b.nombre && nameTaken s i.nombre) = true
      · left; simp [editar, hb, hv, hn]
      · rcases hp : parseMetros i.metros_rapeles with _ | ms
        · left; simp [editar, hb, hv, hn, hp]
        · by_cases hc : (ms.length : ℤ) = i.num_rapeles.getD 0
          · right
            exact ⟨b, ms, rfl, hv, by simpa using hn, rfl, hc,
              by simp [editar, hb, hv, hn, hp, hc]⟩
          · left; simp [editar, hb, hv, hn, hp, hc]
    · left; simp [editar, hb, hv]

/-- Successful-create specification: with a valid form, a fresh name, a
convertible length text, and a matching count, `agregar` commits exactly the
submitted record at the next id. -/
lemma agregar_ok_spec {s : Store} {i : FormInput} {ms : List ℚ}
    (hv : validateForm i = true) (hn : nameTaken s i.nombre = false)
    (hp : parseMetros i.metros_rapeles = some ms)
    (hc : (ms.length : ℤ) = i.num_rapeles.getD 0) :
    agregar s i = ⟨.ok (nextId s), s ++ [nuevoBarranco s i ms], imageWrites i⟩ := by
  simp [agregar, hv, hn, hp, hc]

/-! ### Parser evaluation lemmas -/

lemma digit_not_space {c : Char} (h : c.isDigit = true) : pyIsSpace c = false := by
  by_contra hc
  have hsp : pyIsSpace c = true := by simpa using hc
  simp only [pyIsSpace, Bool.or_eq_true, decide_eq_true_eq] at hsp
  rcases hsp with ((((h1 | h1) | h1) | h1) | h1) | h1 <;> subst h1 <;>
    exact absurd h (by decide)

lemma digit_ne {c d : Char} (h : c.isDigit = true) (hd : d.isDigit = false) : c ≠ d := by
  rintro rfl
  rw [h] at hd
  cases hd

lemma dropWhile_eq_self_of_all {p : Char → Bool} {l : List Char}
    (h : ∀ c ∈ l, p c = false) : l.dropWhile p = l := by
  cases l with
  | nil => rfl
  | cons c t => simp [List.dropWhile_cons, h c (List.mem_cons_self c t)]

lemma stripL_eq_self {l : List Char} (h : ∀ c ∈ l, pyIsSpace c = false) :
    stripL l = l := by
  unfold stripL
  rw [dropWhile_eq_self_of_all h,
    dropWhile_eq_self_of_all (fun c hc => h c (List.mem_reverse.mp hc)),
    List.reverse_reverse]

lemma takeWhile_append_head {p : Char → Bool} (a b : List Char)
    (ha : ∀ c ∈ a, p c = true) (hb : ∀ c, b.head? = some c → p c = false) :
    (a ++ b).takeWhile p = a ∧ (a ++ b).dropWhile p = b := by
  induction a with
  | nil =>
    cases b with
    | nil => exact ⟨rfl, rfl⟩
    | cons c t =>
      have hc := hb c rfl
      simp [List.takeWhile_cons, List.dropWhile_cons, hc]
  | cons x xs ih =>
    have hx : p x = true := ha x (List.mem_cons_self x xs)
    have ih' := ih (fun c hc => ha c (List.mem_cons_of_mem x hc))
    simp [List.takeWhile_cons, List.dropWhile_cons, hx, ih'.1, ih'.2]

lemma pySign_digit {c : Char} (t : List Char) (hc : c.isDigit = true) :
    pySign (c :: t) = (false, c :: t) := by
  have h1 : c ≠ '-' := digit_ne hc (by decide)
  have h2 : c ≠ '+' := digit_ne hc (by decide)
  unfold pySign
  split
  · next heq => exact absurd (List.cons.injEq .. ▸ heq).1 h1
  · next heq => exact absurd (List.cons.injEq .. ▸ heq).1 h2
  · rfl

/-- Evaluation of `pyFloat` on a plain digit string. -/
lemma pyFloat_digits (ds : List Char)
    (hd : ∀ c ∈ ds, c.isDigit = true) (hds : ds ≠ []) :
    pyFloat ds = some (digitsToNat ds : ℚ) := by
  obtain ⟨d, ds', rfl⟩ : ∃ d ds', ds = d :: ds' := by
    cases ds with
    | nil => exact absurd rfl hds
    | cons d t => exact ⟨d, t, rfl⟩
  have hstrip : stripL (d :: ds') = d :: ds' :=
    stripL_eq_self (fun c hc => digit_not_space (hd c hc))
  have htake : (d :: ds').takeWhile Char.isDigit = d :: ds' ∧
      (d :: ds').dropWhile Char.isDigit = [] := by
    simpa using takeWhile_append_head (d :: ds') [] hd (by intro c hc; cases hc)
  unfold pyFloat
  rw [hstrip, pySign_digit ds' (hd d (List.mem_cons_self d ds'))]
  simp only [htake.1, htake.2]
  norm_num [digitsToNat]

/-- Evaluation of `pyFloat` on a signed decimal `ds.fs`. -/
lemma pyFloat_digits_dot (sgn : Bool) (ds fs : List Char)
    (hd : ∀ c ∈ ds, c.isDigit = true) (hf : ∀ c ∈ fs, c.isDigit = true)
    (hds : ds ≠ []) :
    pyFloat ((if sgn then ['-'] else []) ++ ds ++ '.' :: fs) =
      some ((if sgn then (-1 : ℚ) else 1) *
        ((digitsToNat ds : ℚ) + (digitsToNat fs : ℚ) / 10 ^ fs.length)) := by
  obtain ⟨d, ds', rfl⟩ : ∃ d ds', ds = d :: ds' := by
    cases ds with
    | nil => exact absurd rfl hds
    | cons d t => exact ⟨d, t, rfl⟩
  have hnospace : ∀ c ∈ (if sgn then ['-'] else []) ++ (d :: ds') ++ '.' :: fs,
      pyIsSpace c = false := by
    intro c hc
    rcases List.mem_append.mp hc with h | h
    · rcases List.mem_append.mp h with h | h
      · cases sgn with
        | true => rcases List.mem_singleton.mp (by simpa using h) with rfl; decide
        | false => simp at h
      · exact digit_not_space (hd c h)
    · rcases List.mem_cons.mp h with rfl | h
      · decide
      · exact digit_not_space (hf c h)
  have hsplit : ((d :: ds') ++ '.' :: fs).takeWhile Char.isDigit = d :: ds' ∧
      ((d :: ds') ++ '.' :: fs).dropWhile Char.isDigit = '.' :: fs :=
    takeWhile_append_head (d :: ds') ('.' :: fs) hd
      (by rintro c hc; injection hc with hc; subst hc; decide)
  have hfs : fs.takeWhile Char.isDigit = fs ∧ fs.dropWhile Char.isDigit = [] := by
    simpa using takeWhile_append_head fs [] hf (by intro c hc; cases hc)
  unfold pyFloat
  rw [stripL_eq_self hnospace]
  cases sgn with
  | true =>
    have hsg : pySign (['-'] ++ (d :: ds') ++ '.' :: fs) =
        (true, (d :: ds') ++ '.' :: fs) := rfl
    rw [show (if true then ['-'] else []) = ['-'] from rfl] at *
    rw [hsg]
    simp only [hsplit.1, hsplit.2, hfs.1, hfs.2]
    norm_num
  | false =>
    have hcons : (if false then ['-'] else []) ++ (d :: ds') ++ '.' :: fs =
        d :: (ds' ++ '.' :: fs) := by simp
    rw [hcons]
    rw [pySign_digit _ (hd d (List.mem_cons_self d ds'))]
    have hsplit' : (d :: (ds' ++ '.' :: fs)).takeWhile Char.isDigit = d :: ds' ∧
        (d :: (ds' ++ '.' :: fs)).dropWhile Char.isDigit = '.' :: fs := by
      have := hsplit
      simpa using this
    simp only [hsplit'.1, hsplit'.2, hfs.1, hfs.2]
    norm_num

lemma pyFloat_eval_10 : pyFloat ['1', '0'] = some 10 := by
  rw [pyFloat_digits ['1', '0'] (by decide) (by decide),
    show digitsToNat ['1', '0'] = 10 from by decide]
  norm_num

lemma pyFloat_eval_155 : pyFloat ['1', '5', '.', '5'] = some (31 / 2) := by
  have h := pyFloat_digits_dot false ['1', '5'] ['5'] (by decide) (by decide) (by decide)
  rw [show ((if false then ['-'] else []) ++ ['1', '5'] ++ '.' :: ['5']) =
      ['1', '5', '.', '5'] from rfl] at h
  rw [h, show digitsToNat ['1', '5'] = 15 from by decide,
    show digitsToNat ['5'] = 5 from by decide]
  norm_num

/-- Evaluation of the conversion on the spec's example text "10, 15.5". -/
lemma parse_10_155 : parseMetros "10, 15.5" = some [10, 31 / 2] := by
  have e : splitComma "10, 15.5".data = [['1', '0'], [' ', '1', '5', '.', '5']] := by
    decide
  have t1 : stripL ['1', '0'] = ['1', '0'] := by decide
  have t2 : stripL [' ', '1', '5', '.', '5'] = ['1', '5', '.', '5'] := by decide
  unfold parseMetros parseMetrosL
  rw [e]
  simp [parseMetrosPieces, t1, t2, pyFloat_eval_10, pyFloat_eval_155]

/-- Evaluation of the conversion on the single token "10". -/
lemma parse_10 : parseMetros "10" = some [10] := by
  have e : splitComma "10".data = [['1', '0']] := by decide
  have t1 : stripL ['1', '0'] = ['1', '0'] := by decide
  unfold parseMetros parseMetrosL
  rw [e]
  simp [parseMetrosPieces, t1, pyFloat_eval_10]

lemma nameTaken_of_mem {s : Store} {n : String} {b : Barranco}
    (hb : b ∈ s) (hn : b.nombre = n) : nameTaken s n = true := by
  unfold nameTaken
  exact List.find?_isSome.mpr ⟨b, hb, by simp [hn]⟩

/-- A second create under a name the first create just stored is rejected as
a duplicate and leaves the table as the first create left it. -/
lemma dup_second_create {s : Store} {i1 i2 : FormInput}
    (hname : i1.nombre = i2.nombre)
    (h1 : ∃ j, (agregar s i1).res = .ok j) (hv2 : validateForm i2 = true) :
    (agregar (agregar s i1).store i2).res = .duplicateName ∧
    (agregar (agregar s i1).store i2).store = (agregar s i1).store ∧
    (agregar (agregar s i1).store i2).writes = [] := by
  rcases agregar_cases s i1 with ⟨_, _, hno⟩ | ⟨ms, _, _, _, _, heq⟩
  · obtain ⟨j, hj⟩ := h1
    exact absurd hj (hno j)
  · rw [heq]
    have htaken : nameTaken (s ++ [nuevoBarranco s i1 ms]) i2.nombre = true :=
      nameTaken_of_mem (List.mem_append_right s (List.mem_singleton.mpr rfl))
        (by simp [nuevoBarranco, hname])
    simp [agregar, hv2, htaken]

/-- C1: for every valid create input whose parsed length list has exactly
`rappelCount` elements and whose name is not yet taken, `agregar` succeeds,
and fetching the new id returns a record carrying exactly the submitted
name, location, difficulty, rappel count, rappel lengths, overhang flag and
comments. -/
theorem C1_create_then_fetch_roundtrip (s : Store) (i : FormInput) (ms : List ℚ)
    (hv : validateForm i = true) (hn : nameTaken s i.nombre = false)
    (hp : parseMetros i.metros_rapeles = some ms)
    (hc : i.num_rapeles = some (ms.length : ℤ)) :
    ∃ j, (agregar s i).res = .ok j ∧
      ∃ b, fetchById (agregar s i).store j = some b ∧
        b.nombre = i.nombre ∧ b.ubicacion = i.ubicacion ∧
        b.dificultad = i.dificultad ∧ i.num_rapeles = some b.num_rapeles ∧
        b.metros_rapeles = ms ∧ b.volado = i.volado ∧
        b.comentarios = i.comentarios := by
  have hc' : (ms.length : ℤ) = i.num_rapeles.getD 0 := by rw [hc]; rfl
  have heq := agregar_ok_spec hv hn hp hc'
  refine ⟨nextId s, by rw [heq], nuevoBarranco s i ms, ?_, rfl, rfl, rfl, ?_, rfl, rfl, rfl⟩
  · rw [heq]
    exact fetchById_append_nextId s _ rfl
  · simp [nuevoBarranco, hc]

/-- C1 witness: the spec's "Cueva Azul" example, run on an empty table. -/
theorem C1_witness :
    validateForm iCueva = true ∧ nameTaken [] iCueva.nombre = false ∧
    parseMetros iCueva.metros_rapeles = some [10, 31/2] ∧
    iCueva.num_rapeles = some 2 ∧
    (∃ j, (agregar [] iCueva).res = .ok j ∧
      ∃ b, fetchById (agregar [] iCueva).store j = some b ∧
        b.nombre = iCueva.nombre ∧ b.ubicacion = iCueva.ubicacion ∧
        b.dificultad = iCueva.dificultad ∧ iCueva.num_rapeles = some b.num_rapeles ∧
        b.metros_rapeles = [10, 31 / 2] ∧ b.volado = iCueva.volado ∧
        b.comentarios = iCueva.comentarios) :=
  ⟨by decide, by decide, parse_10_155, by decide,
    C1_create_then_fetch_roundtrip [] iCueva [10, 31 / 2]
      (by decide) (by decide) parse_10_155 (by decide)⟩

/-- C3: two creates submitting byte-identical names, each of which would
succeed alone on the current table, end in exactly one success and one
`duplicateName` rejection whichever order they run in, and the rejected one
does not touch the table. -/
theorem C3_duplicate_create_exactly_one (s : Store) (i1 i2 : FormInput)
    (hname : i1.nombre = i2.nombre)
    (h1 : ∃ j, (agregar s i1).res = .ok j) (h2 : ∃ j, (agregar s i2).res = .ok j) :
    ((agregar (agregar s i1).store i2).res = .duplicateName ∧
      (agregar (agregar s i1).store i2).store = (agregar s i1).store) ∧
    ((agregar (agregar s i2).store i1).res = .duplicateName ∧
      (agregar (agregar s i2).store i1).store = (agregar s i2).store) := by
  have hv1 : validateForm i1 = true := by
    rcases agregar_cases s i1 with ⟨_, _, hno⟩ | ⟨_, hv, _⟩
    · obtain ⟨j, hj⟩ := h1; exact absurd hj (hno j)
    · exact hv
  have hv2 : validateForm i2 = true := by
    rcases agregar_cases s i2 with ⟨_, _, hno⟩ | ⟨_, hv, _⟩
    · obtain ⟨j, hj⟩ := h2; exact absurd hj (hno j)
    · exact hv
  obtain ⟨d1, e1, _⟩ := dup_second_create hname h1 hv2
  obtain ⟨d2, e2, _⟩ := dup_second_create hname.symm h2 hv1
  exact ⟨⟨d1, e1⟩, ⟨d2, e2⟩⟩

lemma fetchById_id_eq {s : Store} {id : ℕ} {b : Barranco}
    (hb : fetchById s id = some b) : b.id = id := by
  have := List.find?_some hb
  simpa using this

lemma fetchById_map_update {s : Store} {id : ℕ} {b u : Barranco}
    (hb : fetchById s id = some b) (hu : u.id = id) :
    fetchById (s.map (fun r => if r.id == id then u else r)) id = some u := by
  induction s with
  | nil => cases hb
  | cons r t ih =>
    by_cases hr : r.id = id
    · simp [fetchById, List.find?_cons, hr, hu]
    · have hb' : fetchById t id = some b := by
        simpa [fetchById, List.find?_cons, hr] using hb
      simpa [fetchById, List.find?_cons, hr] using ih hb'

/-- C5: updating a record while submitting its own unchanged name is never
rejected as a duplicate, and a `duplicateName` rejection happens exactly when
the (validated) submission renames the record to a name held by some other
stored record. -/
theorem C5_self_rename_never_duplicate (s : Store) (id : ℕ) (i : FormInput)
    (b : Barranco) (hb : fetchById s id = some b) :
    (i.nombre = b.nombre → (editar s id i).res ≠ .duplicateName) ∧
    ((editar s id i).res = .duplicateName ↔
      validateForm i = true ∧ i.nombre ≠ b.nombre ∧
        ∃ r ∈ s, r ≠ b ∧ r.nombre = i.nombre) := by
  have main : (editar s id i).res = .duplicateName ↔
      validateForm i = true ∧ i.nombre ≠ b.nombre ∧
        ∃ r ∈ s, r ≠ b ∧ r.nombre = i.nombre := by
    constructor
    · intro hdup
      by_cases hv : validateForm i
      · by_cases hcond : (i.nombre != b.nombre && nameTaken s i.nombre) = true
        · rw [Bool.and_eq_true] at hcond
          obtain ⟨hne, htaken⟩ := hcond
          have hne' : i.nombre ≠ b.nombre := bne_iff_ne.mp hne
          have hex : ∃ r ∈ s, r.nombre = i.nombre := by
            have hsome : (s.find? (fun r => r.nombre == i.nombre)).isSome = true := by
              simpa [nameTaken] using htaken
            simpa using List.find?_isSome.mp hsome
          obtain ⟨r, hr, hrn'⟩ := hex
          refine ⟨hv, hne', r, hr, ?_, hrn'⟩
          rintro rfl
          exact hne' (hrn'.symm)
        · exfalso
          rcases hp : parseMetros i.metros_rapeles with _ | ms
          · simp [editar, hb, hv, hcond, hp] at hdup
          · by_cases hc : (ms.length : ℤ) = i.num_rapeles.getD 0
            · simp [editar, hb, hv, hcond, hp, hc] at hdup
            · simp [editar, hb, hv, hcond, hp, hc] at hdup
      · simp [editar, hb, hv] at hdup
    · rintro ⟨hv, hne, r, hr, _, hrn⟩
      have htaken : nameTaken s i.nombre = true := nameTaken_of_mem hr hrn
      have hcond : (i.nombre != b.nombre && nameTaken s i.nombre) = true := by
        simp [bne_iff_ne, hne, htaken]
      simp [editar, hb, hv, hcond]
  refine ⟨fun hnn hdup => ?_, main⟩
  obtain ⟨_, hne, _⟩ := main.mp hdup
  exact hne hnn

/-- C5 witness: editing the stored "Cueva Azul" record keeping its name. -/
theorem C5_witness :
    fetchById [bCueva] 1 = some bCueva ∧
    ((iEdit.nombre = bCueva.nombre → (editar [bCueva] 1 iEdit).res ≠ .duplicateName) ∧
      ((editar [bCueva] 1 iEdit).res = .duplicateName ↔
        validateForm iEdit = true ∧ iEdit.nombre ≠ bCueva.nombre ∧
          ∃ r ∈ [bCueva], r ≠ bCueva ∧ r.nombre = iEdit.nombre)) :=
  ⟨rfl, C5_self_rename_never_duplicate [bCueva] 1 iEdit bCueva rfl⟩

/-- C8: an update submitted without a new image file writes nothing to the
filesystem, and on success the stored record keeps its previous image
reference while every other field takes the submitted value. -/
theorem C8_update_without_file_keeps_image (s : Store) (id : ℕ) (i : FormInput)
    (b : Barranco) (hb : fetchById s id = some b) (himg : i.imagen = none) :
    (editar s id i).writes = [] ∧
    ∀ j, (editar s id i).res = .ok j →
      ∃ u, fetchById (editar s id i).store id = some u ∧
        u.imagen = b.imagen ∧ u.nombre = i.nombre ∧ u.ubicacion = i.ubicacion ∧
        u.dificultad = i.dificultad ∧ u.volado = i.volado ∧
        u.comentarios = i.comentarios ∧
        parseMetros i.metros_rapeles = some u.metros_rapeles := by
  rcases editar_cases s id i with ⟨hst, hw, hno⟩ | ⟨b', ms, hb', hv, hcond, hp, hc, heq⟩
  · exact ⟨hw, fun j hj => absurd hj (hno j)⟩
  · rw [hb] at hb'
    injection hb' with hbb
    subst hbb
    constructor
    · rw [heq]
      simp [imageWrites, himg]
    · intro j _
      refine ⟨updatedBarranco b i ms, ?_, ?_, rfl, rfl, rfl, rfl, rfl, ?_⟩
      · rw [heq]
        exact fetchById_map_update hb (by simp [updatedBarranco, fetchById_id_eq hb])
      · simp [updatedBarranco, himg]
      · rw [hp]
        simp [updatedBarranco]

/-- C8 witness: editing the stored record with no file attached. -/
theorem C8_witness :
    fetchById [bCueva] 1 = some bCueva ∧ iEdit.imagen = none ∧
    ((editar [bCueva] 1 iEdit).writes = [] ∧
      ∀ j, (editar [bCueva] 1 iEdit).res = .ok j →
        ∃ u, fetchById (editar [bCueva] 1 iEdit).store 1 = some u ∧
          u.imagen = bCueva.imagen ∧ u.nombre = iEdit.nombre ∧
          u.ubicacion = iEdit.ubicacion ∧ u.dificultad = iEdit.dificultad ∧
          u.volado = iEdit.volado ∧ u.comentarios = iEdit.comentarios ∧
          parseMetros iEdit.metros_rapeles = some u.metros_rapeles) :=
  ⟨rfl, rfl, C8_update_without_file_keeps_image [bCueva] 1 iEdit bCueva rfl rfl⟩

/-! ### Sanitization lemmas -/

lemma stripDotUnderscore_subset {c : Char} {l : List Char}
    (h : c ∈ stripDotUnderscore l) : c ∈ l := by
  unfold stripDotUnderscore at h
  have h1 := List.mem_reverse.mp h
  have h2 := List.Sublist.mem h1 (List.dropWhile_sublist _)
  have h3 := List.mem_reverse.mp h2
  exact List.Sublist.mem h3 (List.dropWhile_sublist _)

lemma secureFilename_safe {l : List Char} {c : Char}
    (h : c ∈ secureFilename l) : isSafeChar c = true := by
  unfold secureFilename at h
  exact (List.mem_filter.mp (stripDotUnderscore_subset h)).2

lemma safe_head_not_slash {l : List Char} (hsafe : ∀ c ∈ l, isSafeChar c = true) :
    l.head? ≠ some '/' := by
  cases l with
  | nil => simp
  | cons c t =>
    intro h
    have hc : c = '/' := by simpa using h
    subst hc
    exact absurd (hsafe '/' (List.mem_cons_self ..)) (by decide)

/-- C7: every character the sanitizer keeps is in the safe class
`[A-Za-z0-9_.-]` (so the result holds no path separator and no directory
component); the traversal attempt `"../../etc/passwd.png"` collapses to
`"etc_passwd.png"`; every path `agregar` writes is the managed upload
directory joined with the sanitized basename of the submitted file; and on a
successful create with a file, the stored record's image reference is
exactly that sanitized basename. -/
theorem C7_upload_sanitized (s : Store) (i : FormInput) :
    (∀ l : List Char, ∀ c ∈ secureFilename l, isSafeChar c = true) ∧
    secureFilenameS "../../etc/passwd.png" = "etc_passwd.png" ∧
    (∀ f : UploadedFile,
      (savedImagePath f).data = UPLOAD_FOLDER.data ++ '/' :: (savedImageName f).data) ∧
    (∀ p ∈ (agregar s i).writes, ∃ f, i.imagen = some f ∧ p = savedImagePath f) ∧
    (∀ j f, (agregar s i).res = .ok j → i.imagen = some f →
      ∃ b, fetchById (agregar s i).store j = some b ∧
        b.imagen = some (savedImageName f)) := by
  refine ⟨fun l c h => secureFilename_safe h, by decide, fun f => ?_, ?_, ?_⟩
  · have hsafe : ∀ c ∈ (savedImageName f).data, isSafeChar c = true :=
      fun c h => secureFilename_safe h
    have hhead : (savedImageName f).data.head? ≠ some '/' := safe_head_not_slash hsafe
    unfold savedImagePath osPathJoin osPathJoinL
    rw [if_neg hhead, if_neg (by decide)]
  · rcases agregar_cases s i with ⟨_, hw, _⟩ | ⟨ms, _, _, _, _, heq⟩
    · rw [hw]; intro p hp; cases hp
    · rw [heq]
      intro p hp
      rcases hi : i.imagen with _ | f
      · rw [show (⟨.ok (nextId s), s ++ [nuevoBarranco s i ms], imageWrites i⟩ :
            RunOut).writes = imageWrites i from rfl, imageWrites, hi] at hp
        cases hp
      · refine ⟨f, rfl, ?_⟩
        rw [show (⟨.ok (nextId s), s ++ [nuevoBarranco s i ms], imageWrites i⟩ :
            RunOut).writes = imageWrites i from rfl, imageWrites, hi] at hp
        simpa using hp
  · intro j f hok hi
    rcases agregar_cases s i with ⟨_, _, hno⟩ | ⟨ms, _, _, _, _, heq⟩
    · exact absurd hok (hno j)
    · refine ⟨nuevoBarranco s i ms, ?_, ?_⟩
      · have hj : j = nextId s := by
          rw [heq] at hok
          exact (Res.ok.injEq .. ▸ hok).symm
        rw [heq, hj]
        exact fetchById_append_nextId s _ rfl
      · simp [nuevoBarranco, hi]

/-- C7 witness: a valid create carrying the photo "foto.jpg" on an empty
table stores its sanitized name and succeeds at id 1. -/
theorem C7_witness :
    (agregar [] iFotoOk).res = .ok 1 ∧ iFotoOk.imagen = some ⟨"foto.jpg"⟩ ∧
    (∃ b, fetchById (agregar [] iFotoOk).store 1 = some b ∧
      b.imagen = some (savedImageName ⟨"foto.jpg"⟩)) :=
  ⟨by decide, rfl,
    (C7_upload_sanitized [] iFotoOk).2.2.2.2 1 ⟨"foto.jpg"⟩ (by decide) rfl⟩

/-- C3 witness: submitting the "Cueva Azul" form twice on an empty table. -/
theorem C3_witness :
    iCueva.nombre = iCueva.nombre ∧
    (∃ j, (agregar [] iCueva).res = .ok j) ∧
    ((agregar (agregar [] iCueva).store iCueva).res = .duplicateName ∧
      (agregar (agregar [] iCueva).store iCueva).store = (agregar [] iCueva).store) :=
  ⟨rfl, ⟨1, by decide⟩,
    (C3_duplicate_create_exactly_one [] iCueva iCueva rfl
      ⟨1, by decide⟩ ⟨1, by decide⟩).1⟩

/-! ### Splitting and blank-text lemmas -/

lemma splitComma_ne_nil : ∀ l : List Char, splitComma l ≠ []
  | [] => by simp [splitComma]
  | c :: cs => by
    unfold splitComma
    by_cases hc : c = ','
    · simp [hc]
    · rcases h : splitComma cs with _ | ⟨t, ts⟩
      · exact absurd h (splitComma_ne_nil cs)
      · simp [hc, h]

/-- Every character of every piece of a comma split comes from the original
text and is not a comma. -/
lemma splitComma_piece_mem :
    ∀ (l t : List Char), t ∈ splitComma l → ∀ c ∈ t, c ∈ l ∧ c ≠ ','
  | [], t, ht, c, hc => by
    simp only [splitComma, List.mem_singleton] at ht
    subst ht
    cases hc
  | x :: xs, t, ht, c, hc => by
    by_cases hx : x = ','
    · subst hx
      rw [show splitComma (',' :: xs) = [] :: splitComma xs from by simp [splitComma]] at ht
      rcases List.mem_cons.mp ht with rfl | ht'
      · cases hc
      · obtain ⟨h1, h2⟩ := splitComma_piece_mem xs t ht' c hc
        exact ⟨List.mem_cons_of_mem _ h1, h2⟩
    · rcases h : splitComma xs with _ | ⟨t', ts⟩
      · exact absurd h (splitComma_ne_nil xs)
      · rw [show splitComma (x :: xs) = (x :: t') :: ts from by
          simp [splitComma, hx, h]] at ht
        rcases List.mem_cons.mp ht with rfl | ht'
        · rcases List.mem_cons.mp hc with rfl | hc'
          · exact ⟨List.mem_cons_self .., hx⟩
          · obtain ⟨h1, h2⟩ :=
              splitComma_piece_mem xs t' (by rw [h]; exact List.mem_cons_self ..) c hc'
            exact ⟨List.mem_cons_of_mem _ h1, h2⟩
        · obtain ⟨h1, h2⟩ :=
            splitComma_piece_mem xs t (by rw [h]; exact List.mem_cons_of_mem t' ht') c hc
          exact ⟨List.mem_cons_of_mem _ h1, h2⟩

lemma dropWhile_all {p : Char → Bool} {l : List Char} (h : ∀ c ∈ l, p c = true) :
    l.dropWhile p = [] := by
  induction l with
  | nil => rfl
  | cons c t ih =>
    simp [List.dropWhile_cons, h c (List.mem_cons_self ..),
      ih (fun x hx => h x (List.mem_cons_of_mem _ hx))]

lemma stripL_all_space {l : List Char} (h : ∀ c ∈ l, pyIsSpace c = true) :
    stripL l = [] := by
  unfold stripL
  rw [dropWhile_all h]
  rfl

lemma parseMetrosPieces_all_empty :
    ∀ ps : List (List Char), (∀ t ∈ ps, stripL t = []) → parseMetrosPieces ps = some []
  | [], _ => rfl
  | x :: xs, h => by
    simp [parseMetrosPieces, h x (List.mem_cons_self ..),
      parseMetrosPieces_all_empty xs (fun t ht => h t (List.mem_cons_of_mem _ ht))]

/-- A text made of commas and whitespace only converts to the empty list
with no error. -/
lemma parseMetrosL_ws_comma {l : List Char}
    (hall : ∀ c ∈ l, c = ',' ∨ pyIsSpace c = true) : parseMetrosL l = some [] := by
  unfold parseMetrosL
  apply parseMetrosPieces_all_empty
  intro t ht
  apply stripL_all_space
  intro c hc
  obtain ⟨hmem, hne⟩ := splitComma_piece_mem l t ht c hc
  rcases hall c hmem with h | h
  · exact absurd h hne
  · exact h

lemma validateForm_num {i : FormInput} (hv : validateForm i = true) :
    ∃ n, i.num_rapeles = some n ∧ 1 ≤ n := by
  unfold validateForm at hv
  simp only [Bool.and_eq_true] at hv
  obtain ⟨⟨⟨⟨⟨⟨_, _⟩, _⟩, hnum⟩, _⟩, _⟩, _⟩ := hv
  rcases hn : i.num_rapeles with _ | n
  · rw [hn] at hnum; cases hnum
  · rw [hn] at hnum
    exact ⟨n, rfl, by simpa using hnum⟩

/-! ### C2: count mismatch -/

/-- C2 counterexample: a mismatch submission whose name is already stored is
rejected as `duplicateName`, not `countMismatch`, because `agregar` checks
the name first (`src/app.py` line 76 before line 87). -/
theorem C2_counterexample :
    parseMetros iMismatch.metros_rapeles = some [10] ∧
    iMismatch.num_rapeles = some 2 ∧
    (agregar [bCueva] iMismatch).res = .duplicateName ∧
    (agregar [bCueva] iMismatch).res ≠ .countMismatch :=
  ⟨parse_10, rfl, by decide, by decide⟩

/-- C2 (amended): whenever the parsed length list's size differs from the
submitted count, neither create nor update stores or modifies any record or
writes any file; and provided the duplicate-name guard does not fire first
(create: the name is free; update: the name is unchanged or free), the
operation fails precisely with `countMismatch`. -/
theorem C2_count_mismatch_rejected (s : Store) (i : FormInput) (ms : List ℚ)
    (hv : validateForm i = true)
    (hp : parseMetros i.metros_rapeles = some ms)
    (hc : (ms.length : ℤ) ≠ i.num_rapeles.getD 0) :
    ((agregar s i).store = s ∧ (agregar s i).writes = [] ∧
      (nameTaken s i.nombre = false → (agregar s i).res = .countMismatch)) ∧
    ∀ id b, fetchById s id = some b →
      (editar s id i).store = s ∧ (editar s id i).writes = [] ∧
        ((i.nombre != b.nombre && nameTaken s i.nombre) = false →
          (editar s id i).res = .countMismatch) := by
  constructor
  · by_cases hn : nameTaken s i.nombre
    · refine ⟨by simp [agregar, hv, hn], by simp [agregar, hv, hn], fun h => ?_⟩
      rw [h] at hn
      cases hn
    · simp [agregar, hv, hn, hp, hc]
  · intro id b hb
    by_cases hcond : (i.nombre != b.nombre && nameTaken s i.nombre) = true
    · refine ⟨by simp [editar, hb, hv, hcond], by simp [editar, hb, hv, hcond],
        fun h => ?_⟩
      rw [h] at hcond
      cases hcond
    · have hcond' : (i.nombre != b.nombre && nameTaken s i.nombre) = false := by
        simpa using hcond
      simp [editar, hb, hv, hcond', hp, hc]

/-- C2 witness: the spec's mismatch example (count 2, text "10") on an empty
table. -/
theorem C2_witness :
    validateForm iMismatch = true ∧
    parseMetros iMismatch.metros_rapeles = some [10] ∧
    (([10] : List ℚ).length : ℤ) ≠ iMismatch.num_rapeles.getD 0 ∧
    (agregar [] iMismatch).store = [] ∧ (agregar [] iMismatch).writes = [] ∧
    (agregar [] iMismatch).res = .countMismatch := by
  have h := C2_count_mismatch_rejected [] iMismatch [10] (by decide) parse_10 (by decide)
  exact ⟨by decide, parse_10, by decide, h.1.1, h.1.2.1, h.1.2.2 (by decide)⟩

/-! ### C4: token-by-token conversion -/

lemma option_map_eq_bind {α β : Type} (f : α → β) (o : Option α) :
    o.map f = o.bind (fun a => some (f a)) := by
  cases o <;> rfl

lemma parseMetrosPieces_eq_mapM (ps : List (List Char)) :
    parseMetrosPieces ps =
      ((ps.map stripL).filter (fun t => !t.isEmpty)).mapM pyFloat := by
  induction ps with
  | nil => rfl
  | cons x xs ih =>
    simp only [List.map_cons]
    by_cases hx : stripL x = []
    · have hemp : (stripL x).isEmpty = true := by simpa [List.isEmpty_iff] using hx
      rw [show List.filter (fun t => !t.isEmpty) (stripL x :: xs.map stripL) =
          List.filter (fun t => !t.isEmpty) (xs.map stripL) from by simp [hemp]]
      simpa [parseMetrosPieces, hx] using ih
    · have hne : (!(stripL x).isEmpty) = true := by simpa [List.isEmpty_iff] using hx
      rw [show List.filter (fun t => !t.isEmpty) (stripL x :: xs.map stripL) =
          stripL x :: List.filter (fun t => !t.isEmpty) (xs.map stripL) from by
            simp [List.filter_cons, hne],
        List.mapM_cons]
      rcases hpf : pyFloat (stripL x) with _ | v
      · simp [parseMetrosPieces, hx, hpf]
      · have lhs : parseMetrosPieces (x :: xs) = (parseMetrosPieces xs).map (v :: ·) := by
          simp [parseMetrosPieces, hx, hpf]
        rw [lhs, ih]
        exact option_map_eq_bind _ _

/-- C4: the length-text conversion splits the text on commas, trims each
token, drops the tokens that are empty after trimming, and float-parses
every remaining token, the first failure aborting the whole conversion with
no partial list; in `agregar` such a failure surfaces as `invalidNumberList`
with nothing persisted. -/
theorem C4_parse_splits_trims_drops_aborts (l : List Char) (s : Store) (i : FormInput) :
    parseMetrosL l =
      (((splitComma l).map stripL).filter (fun t => !t.isEmpty)).mapM pyFloat ∧
    (validateForm i = true → nameTaken s i.nombre = false →
      parseMetros i.metros_rapeles = none →
      (agregar s i).res = .invalidNumberList ∧ (agregar s i).store = s ∧
        (agregar s i).writes = []) := by
  refine ⟨parseMetrosPieces_eq_mapM (splitComma l), fun hv hn hp => ?_⟩
  refine ⟨?_, ?_, ?_⟩ <;> simp [agregar, hv, hn, hp]

/-- C4 witness: the text "abc" has a token that fails to parse, and the
whole create is rejected as `invalidNumberList`. -/
theorem C4_witness :
    parseMetrosL "abc".data =
      ((((splitComma "abc".data).map stripL).filter (fun t => !t.isEmpty)).mapM pyFloat) ∧
    validateForm iBad = true ∧ parseMetros iBad.metros_rapeles = none ∧
    (agregar [] iBad).res = .invalidNumberList ∧ (agregar [] iBad).store = [] := by
  have h := C4_parse_splits_trims_drops_aborts "abc".data [] iBad
  have h2 := h.2 (by decide) (by decide) (by decide)
  exact ⟨h.1, by decide, by decide, h2.1, h2.2.1⟩

/-! ### C9: file writes versus validation -/

/-- C9 counterexample: a count-mismatch create submitted with a photo is
rejected with `countMismatch` and writes no file at all — the image save
(`src/app.py` lines 102-105) runs after the count check (line 87), not
before it; likewise for update (lines 149-152 after line 135). -/
theorem C9_counterexample :
    iFoto.imagen = some ⟨"foto.jpg"⟩ ∧
    (agregar [] iFoto).res = .countMismatch ∧ (agregar [] iFoto).writes = [] ∧
    (editar [bCueva] 1 iFoto).res = .countMismatch ∧
    (editar [bCueva] 1 iFoto).writes = [] :=
  ⟨rfl, by decide, by decide, by decide, by decide⟩

/-- C9 (amended): in both create and update the image file is written only
after all validation, including the count-to-list check, has succeeded: a
run that does not commit leaves the table unchanged and writes no file. -/
theorem C9_write_only_after_validation (s : Store) (id : ℕ) (i : FormInput) :
    ((agregar s i).writes ≠ [] → ∃ j, (agregar s i).res = .ok j) ∧
    ((∀ j, (agregar s i).res ≠ .ok j) →
      (agregar s i).store = s ∧ (agregar s i).writes = []) ∧
    ((editar s id i).writes ≠ [] → ∃ j, (editar s id i).res = .ok j) ∧
    ((∀ j, (editar s id i).res ≠ .ok j) →
      (editar s id i).store = s ∧ (editar s id i).writes = []) := by
  refine ⟨?_, ?_, ?_, ?_⟩
  · intro hw
    rcases agregar_cases s i with ⟨_, hwr, _⟩ | ⟨ms, _, _, _, _, heq⟩
    · exact absurd hwr hw
    · exact ⟨nextId s, by rw [heq]⟩
  · intro hno
    rcases agregar_cases s i with ⟨hst, hwr, _⟩ | ⟨ms, _, _, _, _, heq⟩
    · exact ⟨hst, hwr⟩
    · exact absurd (show (agregar s i).res = .ok (nextId s) from by rw [heq])
        (hno (nextId s))
  · intro hw
    rcases editar_cases s id i with ⟨_, hwr, _⟩ | ⟨b, ms, _, _, _, _, _, heq⟩
    · exact absurd hwr hw
    · exact ⟨b.id, by rw [heq]⟩
  · intro hno
    rcases editar_cases s id i with ⟨hst, hwr, _⟩ | ⟨b, ms, _, _, _, _, _, heq⟩
    · exact ⟨hst, hwr⟩
    · exact absurd (show (editar s id i).res = .ok b.id from by rw [heq]) (hno b.id)

/-- C9 witness: a successful create with a photo does write its file, and
the write implies the success. -/
theorem C9_witness :
    (agregar [] iFotoOk).writes ≠ [] ∧ (∃ j, (agregar [] iFotoOk).res = .ok j) :=
  ⟨by decide, (C9_write_only_after_validation [] 0 iFotoOk).1 (by decide)⟩

/-! ### C10: comma-and-whitespace-only length texts -/

/-- C10 counterexample: the single-space text consists only of commas and
whitespace and is non-empty, yet it fails the required-field check
(`DataRequired` rejects blank strings), so the create ends `formInvalid`
(a missing-field error), not `countMismatch`. -/
theorem C10_counterexample :
    (∀ c ∈ iBlank.metros_rapeles.data, c = ',' ∨ pyIsSpace c = true) ∧
    iBlank.metros_rapeles ≠ "" ∧
    dataRequiredStr iBlank.metros_rapeles = false ∧
    (agregar [] iBlank).res = .formInvalid ∧
    (agregar [] iBlank).res ≠ .countMismatch := by
  refine ⟨?_, by decide, by decide, by decide, by decide⟩
  decide

/-- C10 (amended): a length text consisting only of commas and whitespace
that survives the required-field check (equivalently, the submitted form
validates) parses to the empty list with no parse error, and — the count
being at least 1 and the name free — the create fails with `countMismatch`,
never with a missing-field or number-list error. -/
theorem C10_commas_only_count_mismatch (s : Store) (i : FormInput)
    (hall : ∀ c ∈ i.metros_rapeles.data, c = ',' ∨ pyIsSpace c = true)
    (hv : validateForm i = true) (hn : nameTaken s i.nombre = false) :
    parseMetros i.metros_rapeles = some [] ∧
    (agregar s i).res = .countMismatch := by
  have hp : parseMetros i.metros_rapeles = some [] := parseMetrosL_ws_comma hall
  obtain ⟨n, hnum, hge⟩ := validateForm_num hv
  have hc : (0 : ℤ) ≠ i.num_rapeles.getD 0 := by
    rw [hnum]
    simp only [Option.getD_some]
    omega
  exact ⟨hp, by simp [agregar, hv, hn, hp, hc]⟩

/-! ### C6: decimal printing and the parse-serialize round trip -/

lemma digitChar_isDigit : ∀ d : ℕ, d < 10 → (Nat.digitChar d).isDigit = true := by
  decide

lemma digitVal_digitChar : ∀ d : ℕ, d < 10 → digitVal (Nat.digitChar d) = d := by
  decide

lemma natToCharsRev_digits : ∀ n : ℕ, ∀ c ∈ natToCharsRev n, c.isDigit = true
  | 0 => by simp [natToCharsRev]
  | n + 1 => by
    intro c hc
    unfold natToCharsRev at hc
    rcases List.mem_cons.mp hc with rfl | hc'
    · exact digitChar_isDigit _ (Nat.mod_lt _ (by norm_num))
    · exact natToCharsRev_digits ((n + 1) / 10) c hc'
  decreasing_by exact Nat.div_lt_self (Nat.succ_pos n) (by norm_num)

lemma natToChars_digits (n : ℕ) : ∀ c ∈ natToChars n, c.isDigit = true := by
  intro c hc
  unfold natToChars at hc
  by_cases h : n = 0
  · rw [if_pos h] at hc
    rcases List.mem_singleton.mp hc with rfl
    decide
  · rw [if_neg h] at hc
    exact natToCharsRev_digits n c (List.mem_reverse.mp hc)

lemma natToChars_ne_nil (n : ℕ) : natToChars n ≠ [] := by
  unfold natToChars
  by_cases h : n = 0
  · simp [h]
  · rw [if_neg h]
    obtain ⟨m, rfl⟩ : ∃ m, n = m + 1 := ⟨n - 1, by omega⟩
    unfold natToCharsRev
    simp

lemma valRev_natToCharsRev :
    ∀ n : ℕ, (natToCharsRev n).foldr (fun c acc => 10 * acc + digitVal c) 0 = n
  | 0 => by simp [natToCharsRev]
  | n + 1 => by
    unfold natToCharsRev
    rw [List.foldr_cons, valRev_natToCharsRev ((n + 1) / 10),
      digitVal_digitChar _ (Nat.mod_lt _ (by norm_num))]
    exact Nat.div_add_mod (n + 1) 10
  decreasing_by exact Nat.div_lt_self (Nat.succ_pos n) (by norm_num)

lemma digitsToNat_natToChars (n : ℕ) : digitsToNat (natToChars n) = n := by
  unfold natToChars
  by_cases h : n = 0
  · simp [h]
    decide
  · rw [if_neg h]
    unfold digitsToNat
    rw [List.foldl_reverse]
    exact valRev_natToCharsRev n

lemma digitsToNat_replicate_zero (j : ℕ) (l : List Char) :
    digitsToNat (List.replicate j '0' ++ l) = digitsToNat l := by
  unfold digitsToNat
  rw [List.foldl_append]
  have hz : ∀ j : ℕ, List.foldl (fun a c => 10 * a + digitVal c) 0
      (List.replicate j '0') = 0 := by
    intro j
    induction j with
    | zero => rfl
    | succ j ih =>
      rw [List.replicate_succ, List.foldl_cons,
        show (10 * 0 + digitVal '0') = 0 from by decide]
      exact ih
  rw [hz]

lemma natToCharsRev_length_le : ∀ n k : ℕ, n < 10 ^ k → (natToCharsRev n).length ≤ k
  | 0, k, _ => by simp [natToCharsRev]
  | n + 1, k, h => by
    obtain ⟨k', rfl⟩ : ∃ k', k = k' + 1 := by
      refine ⟨k - 1, ?_⟩
      rcases Nat.eq_zero_or_pos k with rfl | hk
      · simp at h
      · omega
    have hdiv : (n + 1) / 10 < 10 ^ k' :=
      Nat.div_lt_of_lt_mul (by rw [pow_succ, mul_comm] at h; exact h)
    unfold natToCharsRev
    simp only [List.length_cons]
    have := natToCharsRev_length_le ((n + 1) / 10) k' hdiv
    omega
  decreasing_by exact Nat.div_lt_self (Nat.succ_pos n) (by norm_num)

lemma natToChars_length_le {n k : ℕ} (hk : 1 ≤ k) (h : n < 10 ^ k) :
    (natToChars n).length ≤ k := by
  unfold natToChars
  by_cases h0 : n = 0
  · simpa [h0] using hk
  · rw [if_neg h0, List.length_reverse]
    exact natToCharsRev_length_le n k h

lemma pyStr_eq (q : ℚ) :
    pyStr q = (if q < 0 then ['-'] else []) ++
      natToChars ((q * (10 : ℚ) ^ fracDigits q).num.natAbs / 10 ^ fracDigits q) ++
      '.' :: (List.replicate
          (fracDigits q -
            (natToChars ((q * (10 : ℚ) ^ fracDigits q).num.natAbs %
              10 ^ fracDigits q)).length) '0' ++
        natToChars ((q * (10 : ℚ) ^ fracDigits q).num.natAbs % 10 ^ fracDigits q)) :=
  rfl

lemma pyStr_chars {q : ℚ} : ∀ c ∈ pyStr q, c = '-' ∨ c = '.' ∨ c.isDigit = true := by
  intro c hc
  rw [pyStr_eq] at hc
  rcases List.mem_append.mp hc with h1 | h23
  · rcases List.mem_append.mp h1 with hs | hi
    · left
      by_cases hq : q < 0
      · rw [if_pos hq] at hs
        exact List.mem_singleton.mp hs
      · rw [if_neg hq] at hs
        cases hs
    · right; right
      exact natToChars_digits _ c hi
  · rcases List.mem_cons.mp h23 with rfl | h4
    · right; left; rfl
    · rcases List.mem_append.mp h4 with h5 | h6
      · right; right
        rw [List.eq_of_mem_replicate h5]
        decide
      · right; right
        exact natToChars_digits _ c h6

lemma pyStr_no_space {q : ℚ} : ∀ c ∈ pyStr q, pyIsSpace c = false := by
  intro c hc
  rcases pyStr_chars c hc with rfl | rfl | hd
  · decide
  · decide
  · exact digit_not_space hd

lemma pyStr_no_comma {q : ℚ} : ∀ c ∈ pyStr q, c ≠ ',' := by
  intro c hc
  rcases pyStr_chars c hc with rfl | rfl | hd
  · decide
  · decide
  · exact digit_ne hd (by decide)

lemma pyStr_ne_nil (q : ℚ) : pyStr q ≠ [] := by
  rw [pyStr_eq]
  intro h
  have hdot : '.' ∈ ([] : List Char) := by
    rw [← h]
    simp
  cases hdot

/-- Printing a rational whose denominator clears within the printed number
of fractional digits and parsing it back is the identity. -/
lemma pyFloat_pyStr {q : ℚ} (hdvd : q.den ∣ 10 ^ fracDigits q) :
    pyFloat (pyStr q) = some q := by
  have hk1 : 1 ≤ fracDigits q := le_max_left 1 _
  obtain ⟨c, hc⟩ := hdvd
  have h10 : ((10 : ℚ) ^ fracDigits q) = (q.den : ℚ) * (c : ℚ) := by
    have h1 : ((10 ^ fracDigits q : ℕ) : ℚ) = ((q.den * c : ℕ) : ℚ) := by rw [hc]
    push_cast at h1
    exact h1
  have hmul : q * (10 : ℚ) ^ fracDigits q = ((q.num * (c : ℤ) : ℤ) : ℚ) := by
    rw [h10, ← mul_assoc, Rat.mul_den_eq_num]
    push_cast
    ring
  have hnum : (q * (10 : ℚ) ^ fracDigits q).num = q.num * (c : ℤ) := by
    rw [hmul, Rat.num_intCast]
  have hmQ : (((q * (10 : ℚ) ^ fracDigits q).num.natAbs : ℕ) : ℚ) =
      |q| * 10 ^ fracDigits q := by
    rw [Int.cast_natAbs, Int.cast_abs, hnum, ← hmul, abs_mul,
      abs_of_pos (pow_pos (by norm_num : (0 : ℚ) < 10) _)]
  have hpow_pos : 0 < 10 ^ fracDigits q := pow_pos (by norm_num) _
  have hflen :
      (natToChars ((q * (10 : ℚ) ^ fracDigits q).num.natAbs % 10 ^ fracDigits q)).length ≤
        fracDigits q :=
    natToChars_length_le hk1 (Nat.mod_lt _ hpow_pos)
  have hfs_digits : ∀ x ∈ List.replicate
      (fracDigits q -
        (natToChars ((q * (10 : ℚ) ^ fracDigits q).num.natAbs %
          10 ^ fracDigits q)).length) '0' ++
      natToChars ((q * (10 : ℚ) ^ fracDigits q).num.natAbs % 10 ^ fracDigits q),
      x.isDigit = true := by
    intro x hx
    rcases List.mem_append.mp hx with h | h
    · rw [List.eq_of_mem_replicate h]; decide
    · exact natToChars_digits _ x h
  have hV : (digitsToNat (natToChars
        ((q * (10 : ℚ) ^ fracDigits q).num.natAbs / 10 ^ fracDigits q)) : ℚ) +
      (digitsToNat (List.replicate
          (fracDigits q -
            (natToChars ((q * (10 : ℚ) ^ fracDigits q).num.natAbs %
              10 ^ fracDigits q)).length) '0' ++
        natToChars ((q * (10 : ℚ) ^ fracDigits q).num.natAbs % 10 ^ fracDigits q)) : ℚ) /
        10 ^ (List.replicate
          (fracDigits q -
            (natToChars ((q * (10 : ℚ) ^ fracDigits q).num.natAbs %
              10 ^ fracDigits q)).length) '0' ++
        natToChars ((q * (10 : ℚ) ^ fracDigits q).num.natAbs %
          10 ^ fracDigits q)).length = |q| := by
    rw [digitsToNat_natToChars, digitsToNat_replicate_zero, digitsToNat_natToChars,
      List.length_append, List.length_replicate, Nat.sub_add_cancel hflen]
    have hsplit : (((q * (10 : ℚ) ^ fracDigits q).num.natAbs / 10 ^ fracDigits q : ℕ) : ℚ) *
        10 ^ fracDigits q +
        (((q * (10 : ℚ) ^ fracDigits q).num.natAbs % 10 ^ fracDigits q : ℕ) : ℚ) =
        (((q * (10 : ℚ) ^ fracDigits q).num.natAbs : ℕ) : ℚ) := by
      have h' := congrArg (fun x : ℕ => (x : ℚ))
        (Nat.div_add_mod (q * (10 : ℚ) ^ fracDigits q).num.natAbs (10 ^ fracDigits q))
      push_cast at h'
      linarith
    have hpow0 : ((10 : ℚ) ^ fracDigits q) ≠ 0 := by positivity
    field_simp
    rw [hsplit, hmQ]
  by_cases hq : q < 0
  · have heval := pyFloat_digits_dot true
      (natToChars ((q * (10 : ℚ) ^ fracDigits q).num.natAbs / 10 ^ fracDigits q))
      (List.replicate
          (fracDigits q -
            (natToChars ((q * (10 : ℚ) ^ fracDigits q).num.natAbs %
              10 ^ fracDigits q)).length) '0' ++
        natToChars ((q * (10 : ℚ) ^ fracDigits q).num.natAbs % 10 ^ fracDigits q))
      (natToChars_digits _) hfs_digits (natToChars_ne_nil _)
    rw [show (if true then ['-'] else ([] : List Char)) = ['-'] from rfl] at heval
    rw [pyStr_eq, if_pos hq, heval, hV]
    congr 1
    rw [if_pos rfl, abs_of_neg hq]
    ring
  · have heval := pyFloat_digits_dot false
      (natToChars ((q * (10 : ℚ) ^ fracDigits q).num.natAbs / 10 ^ fracDigits q))
      (List.replicate
          (fracDigits q -
            (natToChars ((q * (10 : ℚ) ^ fracDigits q).num.natAbs %
              10 ^ fracDigits q)).length) '0' ++
        natToChars ((q * (10 : ℚ) ^ fracDigits q).num.natAbs % 10 ^ fracDigits q))
      (natToChars_digits _) hfs_digits (natToChars_ne_nil _)
    rw [show (if false then ['-'] else ([] : List Char)) = [] from rfl] at heval
    rw [pyStr_eq, if_neg hq]
    rw [show ([] : List Char) ++
        natToChars ((q * (10 : ℚ) ^ fracDigits q).num.natAbs / 10 ^ fracDigits q) ++
        '.' :: (List.replicate
            (fracDigits q -
              (natToChars ((q * (10 : ℚ) ^ fracDigits q).num.natAbs %
                10 ^ fracDigits q)).length) '0' ++
          natToChars ((q * (10 : ℚ) ^ fracDigits q).num.natAbs % 10 ^ fracDigits q)) =
      natToChars ((q * (10 : ℚ) ^ fracDigits q).num.natAbs / 10 ^ fracDigits q) ++
        '.' :: (List.replicate
            (fracDigits q -
              (natToChars ((q * (10 : ℚ) ^ fracDigits q).num.natAbs %
                10 ^ fracDigits q)).length) '0' ++
          natToChars ((q * (10 : ℚ) ^ fracDigits q).num.natAbs % 10 ^ fracDigits q))
      from by simp] at heval ⊢
    rw [heval, hV]
    congr 1
    rw [if_neg (by simp), abs_of_nonneg (not_lt.mp hq)]
    ring

lemma serializeMetros_single (q : ℚ) : serializeMetros [q] = pyStr q := by
  simp [serializeMetros]

lemma serializeMetros_cons2 (q r : ℚ) (t : List ℚ) :
    serializeMetros (q :: r :: t) = pyStr q ++ ',' :: ' ' :: serializeMetros (r :: t) := by
  simp [serializeMetros, List.intersperse]

lemma splitComma_no_comma {m : List Char} (h : ∀ c ∈ m, c ≠ ',') :
    splitComma m = [m] := by
  induction m with
  | nil => rfl
  | cons x xs ih =>
    have hx : ¬x = ',' := h x (List.mem_cons_self ..)
    have ih' := ih (fun c hc => h c (List.mem_cons_of_mem _ hc))
    simp [splitComma, hx, ih']

lemma splitComma_append {a rest : List Char} (h : ∀ c ∈ a, c ≠ ',') :
    splitComma (a ++ ',' :: rest) = a :: splitComma rest := by
  induction a with
  | nil => simp [splitComma]
  | cons x xs ih =>
    have hx : ¬x = ',' := h x (List.mem_cons_self ..)
    have ih' := ih (fun c hc => h c (List.mem_cons_of_mem _ hc))
    simp [splitComma, hx, ih']

lemma stripL_cons_space (l : List Char) : stripL (' ' :: l) = stripL l := by
  unfold stripL
  rw [List.dropWhile_cons, if_pos (by decide)]

/-- Serializing a list of printable rationals and re-splitting and parsing
it recovers the list. -/
lemma parseMetrosPieces_serialize :
    ∀ l : List ℚ, (∀ q ∈ l, q.den ∣ 10 ^ fracDigits q) →
      parseMetrosPieces (splitComma (serializeMetros l)) = some l
  | [], _ => rfl
  | [q], h => by
    rw [serializeMetros_single, splitComma_no_comma pyStr_no_comma]
    have hs : stripL (pyStr q) = pyStr q := stripL_eq_self pyStr_no_space
    simp [parseMetrosPieces, hs, pyStr_ne_nil q,
      pyFloat_pyStr (h q (List.mem_singleton.mpr rfl))]
  | q :: r :: t, h => by
    rw [serializeMetros_cons2, splitComma_append pyStr_no_comma]
    obtain ⟨t0, ts, hsp⟩ : ∃ t0 ts,
        splitComma (serializeMetros (r :: t)) = t0 :: ts := by
      rcases hh : splitComma (serializeMetros (r :: t)) with _ | ⟨t0, ts⟩
      · exact absurd hh (splitComma_ne_nil _)
      · exact ⟨t0, ts, rfl⟩
    have hsp2 : splitComma (' ' :: serializeMetros (r :: t)) = (' ' :: t0) :: ts := by
      simp [splitComma, hsp]
    rw [hsp2]
    have ih := parseMetrosPieces_serialize (r :: t)
      (fun x hx => h x (List.mem_cons_of_mem _ hx))
    rw [hsp] at ih
    have hs : stripL (pyStr q) = pyStr q := stripL_eq_self pyStr_no_space
    have heq2 : parseMetrosPieces ((' ' :: t0) :: ts) = parseMetrosPieces (t0 :: ts) := by
      simp [parseMetrosPieces, stripL_cons_space]
    have hnon : stripL (pyStr q) ≠ [] := by
      rw [hs]
      exact pyStr_ne_nil q
    rw [show parseMetrosPieces (pyStr q :: (' ' :: t0) :: ts) =
        (if stripL (pyStr q) = [] then parseMetrosPieces ((' ' :: t0) :: ts)
         else match pyFloat (stripL (pyStr q)) with
           | none => none
           | some v => (parseMetrosPieces ((' ' :: t0) :: ts)).map (v :: ·)) from rfl,
      if_neg hnon, hs, pyFloat_pyStr (h q (List.mem_cons_self ..))]
    show (parseMetrosPieces ((' ' :: t0) :: ts)).map (q :: ·) = some (q :: r :: t)
    rw [heq2, ih]
    rfl

lemma pyFloat_eval_15 : pyFloat ['1', '.', '5'] = some (3 / 2) := by
  have h := pyFloat_digits_dot false ['1'] ['5'] (by decide) (by decide) (by decide)
  rw [show ((if false then ['-'] else []) ++ ['1'] ++ '.' :: ['5']) =
      ['1', '.', '5'] from rfl] at h
  rw [h, show digitsToNat ['1'] = 1 from by decide,
    show digitsToNat ['5'] = 5 from by decide]
  norm_num

lemma pyFloat_eval_2 : pyFloat ['2'] = some 2 := by
  rw [pyFloat_digits ['2'] (by decide) (by decide),
    show digitsToNat ['2'] = 2 from by decide]
  norm_num

lemma pyFloat_eval_325 : pyFloat ['3', '.', '2', '5'] = some (13 / 4) := by
  have h := pyFloat_digits_dot false ['3'] ['2', '5'] (by decide) (by decide) (by decide)
  rw [show ((if false then ['-'] else []) ++ ['3'] ++ '.' :: ['2', '5']) =
      ['3', '.', '2', '5'] from rfl] at h
  rw [h, show digitsToNat ['3'] = 3 from by decide,
    show digitsToNat ['2', '5'] = 25 from by decide]
  norm_num

/-- Evaluation of the conversion on the spec's round-trip example text. -/
lemma parse_15_2_325 : parseMetros "1.5, 2, 3.25" = some [3 / 2, 2, 13 / 4] := by
  have e : splitComma "1.5, 2, 3.25".data =
      [['1', '.', '5'], [' ', '2'], [' ', '3', '.', '2', '5']] := by decide
  have t1 : stripL ['1', '.', '5'] = ['1', '.', '5'] := by decide
  have t2 : stripL [' ', '2'] = ['2'] := by decide
  have t3 : stripL [' ', '3', '.', '2', '5'] = ['3', '.', '2', '5'] := by decide
  unfold parseMetros parseMetrosL
  rw [e]
  simp [parseMetrosPieces, t1, t2, t3, pyFloat_eval_15, pyFloat_eval_2, pyFloat_eval_325]

lemma multExp_of_not_dvd {p n : ℕ} (h : ¬p ∣ n) : multExp p n = 0 := by
  unfold multExp
  rw [dif_neg]
  tauto

lemma multExp_step {p n : ℕ} (h2 : 2 ≤ p) (h0 : 0 < n) (hd : p ∣ n) :
    multExp p n = multExp p (n / p) + 1 := by
  conv_lhs => unfold multExp
  rw [dif_pos ⟨h2, h0, hd⟩]

lemma fracDigits_32 : fracDigits (3 / 2 : ℚ) = 1 := by
  unfold fracDigits
  rw [show ((3 : ℚ) / 2).den = 2 from by norm_num]
  rw [multExp_step (by norm_num) (by norm_num) (by norm_num),
    show (2 : ℕ) / 2 = 1 from by norm_num,
    multExp_of_not_dvd (by norm_num),
    multExp_of_not_dvd (show ¬(5 : ℕ) ∣ 2 from by norm_num)]
  decide

lemma fracDigits_134 : fracDigits (13 / 4 : ℚ) = 2 := by
  unfold fracDigits
  rw [show ((13 : ℚ) / 4).den = 4 from by norm_num]
  rw [multExp_step (by norm_num) (by norm_num) (by norm_num),
    show (4 : ℕ) / 2 = 2 from by norm_num,
    multExp_step (by norm_num) (by norm_num) (by norm_num),
    show (2 : ℕ) / 2 = 1 from by norm_num,
    multExp_of_not_dvd (by norm_num),
    multExp_of_not_dvd (show ¬(5 : ℕ) ∣ 4 from by norm_num)]
  decide

/-- C6: parsing the comma text "1.5, 2, 3.25" yields exactly the three
values 1.5, 2.0 and 3.25, and re-serializing any stored lengths list the way
the edit form prefill does, then re-parsing it, reproduces the stored values
exactly (for every value the printer can represent, i.e. whose denominator
divides the printed power of ten). -/
theorem C6_parse_serialize_roundtrip :
    parseMetros "1.5, 2, 3.25" = some [3 / 2, 2, 13 / 4] ∧
    ∀ l : List ℚ, (∀ q ∈ l, q.den ∣ 10 ^ fracDigits q) →
      parseMetrosL (serializeMetros l) = some l :=
  ⟨parse_15_2_325, fun l h => parseMetrosPieces_serialize l h⟩

/-- C6 witness: the example's three parsed values round-trip through the
edit-form serialization. -/
theorem C6_witness :
    (∀ q ∈ ([3 / 2, 2, 13 / 4] : List ℚ), q.den ∣ 10 ^ fracDigits q) ∧
    parseMetrosL (serializeMetros [3 / 2, 2, 13 / 4]) = some [3 / 2, 2, 13 / 4] := by
  have hden : ∀ q ∈ ([3 / 2, 2, 13 / 4] : List ℚ), q.den ∣ 10 ^ fracDigits q := by
    intro q hq
    simp only [List.mem_cons, List.not_mem_nil, or_false] at hq
    rcases hq with rfl | rfl | rfl
    · rw [fracDigits_32, show ((3 : ℚ) / 2).den = 2 from by norm_num]
      norm_num
    · rw [show ((2 : ℚ)).den = 1 from by norm_num]
      exact Nat.one_dvd _
    · rw [fracDigits_134, show ((13 : ℚ) / 4).den = 4 from by norm_num]
      norm_num
  exact ⟨hden, C6_parse_serialize_roundtrip.2 _ hden⟩

/-- C10 witness: the text ", ," passes the required check and ends in
`countMismatch`. -/
theorem C10_witness :
    (∀ c ∈ iCommas.metros_rapeles.data, c = ',' ∨ pyIsSpace c = true) ∧
    validateForm iCommas = true ∧ nameTaken [] iCommas.nombre = false ∧
    (parseMetros iCommas.metros_rapeles = some [] ∧
      (agregar [] iCommas).res = .countMismatch) :=
  ⟨by decide, by decide, by decide,
    C10_commas_only_count_mismatch [] iCommas (by decide) (by decide) (by decide)⟩

end Adargama
